import Mathlib

/-!
Shallow embedding of `src/interactive_horse_race/tcp_server.c` (learnuv).

Modelling conventions:
* A `luv_client_t` is a `Client` record carrying the two data fields the C
  struct holds besides the transport handle: `id` and `slot`.  The `server`
  back-pointer is implicit: every operation that in C reads `client->server`
  takes the owning `Server` as an explicit argument.
* The server's `clients[MAX_CLIENTS]` array together with `num_clients` is
  modelled as the live prefix `clients : List (Option Client)` whose length is
  `num_clients`; entries of the C array at indices `>= num_clients` are stale
  garbage that the code never reads, so they are not represented.  C `int`
  indices are `Nat` (all registry indices the code computes are nonnegative in
  the executions modelled); identities are unbounded `Int` (C `int`; signed
  overflow is UB, and the spec treats the identity as an unbounded counter).
* Calls into libuv and into the application hooks are recorded as an `Effect`
  trace; the synchronous return code of `uv_write` during a broadcast is an
  oracle `wr : Nat -> Int` (result of the write issued at registry index `i`).
* `CHECK(r, msg)` is defined in `learnuv.h`, which is not part of the sources
  here.  Modelled from the spec: a failed check is logged and execution
  continues ("Read error (not EOF): logged, treated identically to EOF";
  "a write failure on a broadcast to one client must not affect others"), so
  `CHECK` emits `Effect.logError` when its argument is nonzero and is a no-op
  otherwise.
* `malloc` is assumed to succeed, and the `status`/`uv_tcp_init`/
  `uv_read_start` return codes that the claims do not exercise are assumed 0.
-/

/-- `#define MAX_CLIENTS 5` -/
def MAX_CLIENTS : Nat := 5

/-- libuv's end-of-file error code. -/
def UV_EOF : Int := -4095

/-- The data fields of `luv_client_t` (besides the embedded `uv_tcp_t` handle
and the implicit `server` back-pointer): `int id; int slot;`. -/
structure Client where
  id : Int
  slot : Nat
  deriving Repr, DecidableEq

/-- `luv_client_msg_t`: the read buffer (modelled as an allocation handle),
its length, and the originating client's identity (`msg->client`). -/
structure ClientMsg where
  buf : Nat
  len : Nat
  client : Int
  deriving Repr, DecidableEq

/-- Observable actions of the server code: logging, application hook
invocations, and libuv requests.  Hook effects carry the arguments the C code
passes (client identity and the server's `num_clients` at call time). -/
inductive Effect where
  | logInfo (msg : String)
  | logError (msg : String)
  | logWarn (i : Nat)
  | hookConnected (id : Int) (total : Nat)
  | hookDisconnected (id : Int) (total : Nat)
  | hookMsg (m : ClientMsg)
  | readStart (id : Int)
  | writeIssued (client : Int) (data : String)
  | freeBuffer (buf : Nat)
  | shutdownIssued (id : Int)
  deriving Repr, DecidableEq

/-- `luv_server_s`: host, port, the live registry prefix
(`clients[0..num_clients)`, see module comment) and the identity counter
`ids`.  `num_clients` is `clients.length`. -/
structure Server where
  host : String
  port : Int
  clients : List (Option Client)
  ids : Int
  deriving Repr, DecidableEq

/-- `luv_server_create`: sets host and port, `num_clients = 0`, and the hooks.
The C code never initializes `self->ids`, so the model takes the
indeterminate initial counter value `g` as a parameter. -/
def luv_server_create (host : String) (port : Int) (g : Int) : Server :=
  { host := host, port := port, clients := [], ids := g }

/-- `disconnect(client)` (tcp_server.c:70-89): slot-swap compaction —
if the client's slot is not the last live slot, the record at the last live
slot is copied into it and that record's `slot` field is set to the new index;
then `num_clients--`, the on-disconnect hook runs with the new count, and a
shutdown request is issued for the client's transport. -/
def disconnect (c : Client) (s : Server) : Server × List Effect :=
  let last_slot := s.clients.length - 1
  let cl :=
    if c.slot < last_slot then
      s.clients.set c.slot
        ((s.clients.getD last_slot none).map (fun m => { m with slot := c.slot }))
    else s.clients
  let s' := { s with clients := cl.take last_slot }
  (s', [Effect.hookDisconnected c.id s'.clients.length, Effect.shutdownIssued c.id])

/-- `onconnection(tcp, status)` (tcp_server.c:91-128), for `status = 0`.
`acceptR` is the return code of `uv_accept`.  On accept failure the C code
calls `disconnect` on the freshly malloc'd client whose `id`, `slot` and
`server` fields are still uninitialized; the model passes the indeterminate
`id`/`slot` contents as `gid`/`gslot` and reads the garbage `server` pointer
as this server (the most charitable resolution of that undefined behavior). -/
def onconnection (s : Server) (acceptR : Int) (gid : Int) (gslot : Nat) :
    Server × List Effect :=
  if s.clients.length = MAX_CLIENTS then
    (s, [Effect.logInfo "Accepting Connection",
         Effect.logInfo "exceeded allowed number of clients"])
  else if acceptR ≠ 0 then
    let garbage : Client := { id := gid, slot := gslot }
    let r := disconnect garbage s
    (r.1, Effect.logInfo "Accepting Connection" ::
          Effect.logError "trying to accept connection" :: r.2)
  else
    let client : Client := { id := s.ids, slot := s.clients.length }
    ({ s with clients := s.clients ++ [some client], ids := s.ids + 1 },
     [Effect.logInfo "Accepting Connection",
      Effect.hookConnected s.ids (s.clients.length + 1),
      Effect.readStart s.ids])

/-- `read_cb(stream, nread, buf)` (tcp_server.c:136-159).  `c` is the client
the stream belongs to and `s` its server (`client->server`); `buf` is the
handle of the buffer `alloc_cb` produced.  Negative `nread` logs via `CHECK`
unless it is `UV_EOF`, frees the buffer and disconnects; zero `nread` only
frees the buffer; positive `nread` packages a message and fires the
on-message hook. -/
def read_cb (s : Server) (c : Client) (nread : Int) (buf : Nat) :
    Server × List Effect :=
  if nread < 0 then
    let logs : List Effect := if nread ≠ UV_EOF then [Effect.logError "read_cb"] else []
    let r := disconnect c s
    (r.1, logs ++ Effect.freeBuffer buf :: r.2)
  else if nread = 0 then
    (s, [Effect.freeBuffer buf])
  else
    (s, [Effect.hookMsg { buf := buf, len := nread.toNat, client := c.id }])

/-- `onclient_msg_processed(msg, response)` (tcp_server.c:161-170): issue one
write of exactly `response` to the message's originating client (the return
code of `uv_write` is ignored by the C code), then free the message's byte
buffer. -/
def onclient_msg_processed (m : ClientMsg) (response : String) : List Effect :=
  [Effect.writeIssued m.client response, Effect.freeBuffer m.buf]

/-- Loop body of `luv_server_broadcast` (tcp_server.c:179-188): walk
`clients[i]` for `i` from the start index upward; a `NULL` entry logs a
warning and is skipped, otherwise a write is issued and its synchronous
return code `wr i` is `CHECK`ed (logged when nonzero, see module comment). -/
def broadcastLoop (data : String) (wr : Nat → Int) : Nat → List (Option Client) → List Effect
  | _, [] => []
  | i, none :: rest => Effect.logWarn i :: broadcastLoop data wr (i + 1) rest
  | i, some c :: rest =>
      Effect.writeIssued c.id data ::
        ((if wr i ≠ 0 then [Effect.logError "uv_write"] else []) ++
          broadcastLoop data wr (i + 1) rest)

/-- `luv_server_broadcast(self, msg)` (tcp_server.c:172-189). -/
def luv_server_broadcast (s : Server) (data : String) (wr : Nat → Int) : List Effect :=
  broadcastLoop data wr 0 s.clients

/-- `write_cb(req, status)` (tcp_server.c:64-68): `CHECK` the completion
status (spec-modelled: log on failure) and free the request. -/
def write_cb (status : Int) : List Effect :=
  if status ≠ 0 then [Effect.logError "write_cb"] else []

/-- Look up the live client whose identity is `cid` (the model's way of
designating which live connection a libuv callback fires on). -/
def findClient (s : Server) (cid : Int) : Option Client :=
  (s.clients.filterMap (fun o => o)).find? (fun c => c.id == cid)

/-- Registry-mutating events of a server's lifetime: an incoming connection
(with the `uv_accept` return code and, for the failure path, the
indeterminate contents of the uninitialized client record), and the
EOF/error-triggered disconnect of the live client with identity `cid`. -/
inductive Event where
  | conn (acceptR : Int) (gid : Int) (gslot : Nat)
  | disc (cid : Int)
  deriving Repr, DecidableEq

/-- One event dispatched against the server.  A `disc` targeting an identity
that is not live is a no-op (in C such a callback cannot fire). -/
def step (s : Server) : Event → Server × List Effect
  | Event.conn r gid gslot => onconnection s r gid gslot
  | Event.disc cid =>
      match findClient s cid with
      | some c => disconnect c s
      | none => (s, [])

/-- Run a sequence of events, accumulating the effect trace. -/
def runServer (s : Server) : List Event → Server × List Effect
  | [] => (s, [])
  | e :: evs =>
      let r1 := step s e
      let r2 := runServer r1.1 evs
      (r2.1, r1.2 ++ r2.2)

/-- An event whose `uv_accept` (if any) succeeds, so that the undefined
behavior of the accept-failure path (see `onconnection`) is not exercised. -/
def acceptOkE : Event → Bool
  | Event.conn r _ _ => r == 0
  | Event.disc _ => true

/-- Identities of the live registry prefix, in registry order. -/
def liveIds (s : Server) : List Int :=
  s.clients.filterMap (fun o => o.map (fun c => c.id))

/-- Targets of the write requests in a trace, in issue order. -/
def writeTargets (tr : List Effect) : List Int :=
  tr.filterMap (fun e => match e with
    | Effect.writeIssued c _ => some c
    | _ => none)

/-- Target/payload pairs of the write requests in a trace. -/
def writeEvents (tr : List Effect) : List (Int × String) :=
  tr.filterMap (fun e => match e with
    | Effect.writeIssued c d => some (c, d)
    | _ => none)

/-- Indices reported by the null-entry warnings in a trace. -/
def warnEvents (tr : List Effect) : List Nat :=
  tr.filterMap (fun e => match e with
    | Effect.logWarn i => some i
    | _ => none)

/-- Identities passed to the on-connect hook, in invocation order. -/
def acceptedIds (tr : List Effect) : List Int :=
  tr.filterMap (fun e => match e with
    | Effect.hookConnected i _ => some i
    | _ => none)

/-- Arguments of on-disconnect hook invocations in a trace. -/
def discEvents (tr : List Effect) : List (Int × Nat) :=
  tr.filterMap (fun e => match e with
    | Effect.hookDisconnected i t => some (i, t)
    | _ => none)

/-- Messages passed to the on-message hook in a trace. -/
def msgEvents (tr : List Effect) : List ClientMsg :=
  tr.filterMap (fun e => match e with
    | Effect.hookMsg m => some m
    | _ => none)

/-- `idApart o x` holds when the registry entry `o` does not carry
identity `x` (a null entry trivially does not). -/
def idApart : Option Client → Int → Bool
  | none, _ => true
  | some d, x => d.id != x

/-- The registry invariant: `num_clients <= MAX_CLIENTS`; every entry of the
live prefix is a non-null record whose `slot` equals its registry index (so
the prefix is gap-free and no two live records share a slot) and whose
identity is below the server's counter; and no two live records share an
identity. -/
def WfServer (s : Server) : Prop :=
  s.clients.length ≤ MAX_CLIENTS ∧
  (∀ i, i < s.clients.length →
    ∃ c, s.clients[i]? = some (some c) ∧ c.slot = i ∧ c.id < s.ids) ∧
  (∀ i j, i < s.clients.length → j < s.clients.length → i ≠ j →
    ∀ a b, s.clients[i]? = some (some a) → s.clients[j]? = some (some b) →
      a.id ≠ b.id)

/-- Concrete clients and servers used as witness inputs. -/
def clientA : Client := { id := 0, slot := 0 }

def clientB : Client := { id := 1, slot := 1 }

def clientC : Client := { id := 2, slot := 2 }

def serverOne : Server :=
  { host := "0.0.0.0", port := 7000, clients := [some clientA], ids := 1 }

def serverTwo : Server :=
  { host := "0.0.0.0", port := 7000, clients := [some clientA, some clientB], ids := 2 }

def serverThree : Server :=
  { host := "0.0.0.0", port := 7000,
    clients := [some clientA, some clientB, some clientC], ids := 3 }

def serverFull : Server :=
  { host := "0.0.0.0", port := 7000,
    clients := [some clientA, some clientB, some clientC,
                some { id := 3, slot := 3 }, some { id := 4, slot := 4 }],
    ids := 5 }

theorem disconnect_length (c : Client) (s : Server) :
    (disconnect c s).1.clients.length = s.clients.length - 1 := by
  simp only [disconnect]
  split <;> simp [List.length_take]

theorem disconnect_ids (c : Client) (s : Server) : (disconnect c s).1.ids = s.ids := by
  simp only [disconnect]

theorem disconnect_entry_ne (c : Client) (s : Server) (j : Nat)
    (hj : j < s.clients.length - 1) (hne : j ≠ c.slot) :
    (disconnect c s).1.clients[j]? = s.clients[j]? := by
  simp only [disconnect]
  split
  · rw [List.getElem?_take, if_pos hj, List.getElem?_set_ne (Ne.symm hne)]
  · rw [List.getElem?_take, if_pos hj]

theorem disconnect_entry_eq (c : Client) (s : Server)
    (h : c.slot < s.clients.length - 1) :
    (disconnect c s).1.clients[c.slot]? =
      some ((s.clients.getD (s.clients.length - 1) none).map
        (fun m => { m with slot := c.slot })) := by
  simp only [disconnect]
  rw [if_pos h, List.getElem?_take, if_pos h,
    List.getElem?_set_self (by omega)]

theorem disconnect_trace (c : Client) (s : Server) :
    (disconnect c s).2 =
      [Effect.hookDisconnected c.id (s.clients.length - 1),
       Effect.shutdownIssued c.id] := by
  simp only [disconnect]
  split <;> simp [List.length_take]

theorem broadcastLoop_writeTargets (data : String) (wr : Nat → Int)
    (l : List (Option Client)) :
    ∀ i, writeTargets (broadcastLoop data wr i l) =
      l.filterMap (fun o => o.map (fun c => c.id)) := by
  induction l with
  | nil => intro i; rfl
  | cons o rest ih =>
    intro i
    cases o with
    | none =>
      simp only [broadcastLoop, writeTargets, List.filterMap_cons] at ih ⊢
      exact ih (i + 1)
    | some c =>
      simp only [broadcastLoop, writeTargets, List.filterMap_cons,
        List.filterMap_append] at ih ⊢
      by_cases h : wr i = 0 <;> simp [h, ih (i + 1)]

theorem broadcastLoop_warn_length (data : String) (wr : Nat → Int)
    (l : List (Option Client)) :
    ∀ i, (warnEvents (broadcastLoop data wr i l)).length =
      (l.filter (fun o => o.isNone)).length := by
  induction l with
  | nil => intro i; rfl
  | cons o rest ih =>
    intro i
    cases o with
    | none =>
      simp only [broadcastLoop, warnEvents, List.filterMap_cons, List.filter_cons] at ih ⊢
      simpa using ih (i + 1)
    | some c =>
      simp only [broadcastLoop, warnEvents, List.filterMap_cons, List.filter_cons,
        List.filterMap_append] at ih ⊢
      by_cases h : wr i = 0 <;> simp [h, ih (i + 1)]

theorem broadcast_writeTargets (s : Server) (data : String) (wr : Nat → Int) :
    writeTargets (luv_server_broadcast s data wr) = liveIds s :=
  broadcastLoop_writeTargets data wr s.clients 0

/-- C5: broadcast fan-out.  The write requests issued by
`luv_server_broadcast` are exactly one per non-null entry of
`clients[0..num_clients)`, in registry order, whatever results `wr` the
individual `uv_write` calls return (so a failure on one connection never
suppresses the writes to the others), and each null entry produces exactly
one logged warning and no write. -/
theorem C5_broadcast_fanout (s : Server) (data : String) (wr : Nat → Int) :
    writeTargets (luv_server_broadcast s data wr) = liveIds s ∧
    (warnEvents (luv_server_broadcast s data wr)).length =
      (s.clients.filter (fun o => o.isNone)).length :=
  ⟨broadcast_writeTargets s data wr,
   broadcastLoop_warn_length data wr s.clients 0⟩

/-- C6: the responder `onclient_msg_processed` issues exactly one write,
carrying exactly the response text, to the message's originating connection,
and then (afterwards, as the second effect) releases the message's byte
buffer. -/
theorem C6_responder_write_then_free (m : ClientMsg) (response : String) :
    writeEvents (onclient_msg_processed m response) = [(m.client, response)] ∧
    onclient_msg_processed m response =
      [Effect.writeIssued m.client response, Effect.freeBuffer m.buf] :=
  ⟨rfl, rfl⟩

/-- C10: a zero-byte read releases the allocated buffer and does nothing
else: no message is constructed, no hook fires, and the server state is
unchanged. -/
theorem C10_zero_read_frame (s : Server) (c : Client) (buf : Nat) :
    read_cb s c 0 buf = (s, [Effect.freeBuffer buf]) ∧
    msgEvents (read_cb s c 0 buf).2 = [] ∧
    acceptedIds (read_cb s c 0 buf).2 = [] ∧
    discEvents (read_cb s c 0 buf).2 = [] := by
  refine ⟨?_, ?_, ?_, ?_⟩ <;>
    simp [read_cb, msgEvents, acceptedIds, discEvents, writeTargets]

/-- C7: a read error other than EOF is logged and then follows exactly the
EOF path: the read buffer is freed and the disconnect sequence (registry
removal, on-disconnect hook, shutdown) runs, with identical resulting
state. -/
theorem C7_read_error_like_eof (s : Server) (c : Client) (nread : Int)
    (buf : Nat) (h1 : nread < 0) (h2 : nread ≠ UV_EOF) :
    read_cb s c nread buf =
      ((disconnect c s).1,
       Effect.logError "read_cb" :: Effect.freeBuffer buf :: (disconnect c s).2) ∧
    read_cb s c UV_EOF buf =
      ((disconnect c s).1, Effect.freeBuffer buf :: (disconnect c s).2) := by
  constructor
  · simp [read_cb, h1, h2]
  · simp [read_cb, UV_EOF]

theorem C7_read_error_like_eof_witness :
    ((-104 : Int) < 0 ∧ (-104 : Int) ≠ UV_EOF) ∧
    (read_cb serverTwo clientB (-104) 7 =
      ((disconnect clientB serverTwo).1,
       Effect.logError "read_cb" :: Effect.freeBuffer 7 ::
         (disconnect clientB serverTwo).2) ∧
     read_cb serverTwo clientB UV_EOF 7 =
      ((disconnect clientB serverTwo).1,
       Effect.freeBuffer 7 :: (disconnect clientB serverTwo).2)) :=
  ⟨⟨by decide, by decide⟩,
   C7_read_error_like_eof serverTwo clientB (-104) 7 (by decide) (by decide)⟩

/-- C2: with the registry at capacity, an incoming connection event leaves
the server state (count and all records) untouched, creates no record, fires
no hook and issues no request: the whole observable behavior is two log
lines. -/
theorem C2_capacity_reject (s : Server) (h : s.clients.length = MAX_CLIENTS)
    (acceptR gid : Int) (gslot : Nat) :
    (onconnection s acceptR gid gslot).1 = s ∧
    (onconnection s acceptR gid gslot).2 =
      [Effect.logInfo "Accepting Connection",
       Effect.logInfo "exceeded allowed number of clients"] := by
  constructor <;> simp [onconnection, h]

theorem C2_capacity_reject_witness :
    serverFull.clients.length = MAX_CLIENTS ∧
    ((onconnection serverFull (-1) 0 0).1 = serverFull ∧
     (onconnection serverFull (-1) 0 0).2 =
       [Effect.logInfo "Accepting Connection",
        Effect.logInfo "exceeded allowed number of clients"]) :=
  ⟨by decide, C2_capacity_reject serverFull (by decide) (-1) 0 0⟩

/-- C3: removing a live record decrements the count by exactly one; every
index other than the removed record's slot keeps its entry; and when the
removed slot is not the last live index, that slot receives exactly the
record previously stored at the last live index, with its `slot` field set to
the new index (when the removed slot is the last index the second conjunct
says no entry moves at all). -/
theorem C3_slot_swap (c : Client) (s : Server) (h : c.slot < s.clients.length) :
    (disconnect c s).1.clients.length + 1 = s.clients.length ∧
    (∀ j, j < s.clients.length - 1 → j ≠ c.slot →
      (disconnect c s).1.clients[j]? = s.clients[j]?) ∧
    (c.slot < s.clients.length - 1 →
      (disconnect c s).1.clients[c.slot]? =
        some ((s.clients.getD (s.clients.length - 1) none).map
          (fun m => { m with slot := c.slot }))) := by
  refine ⟨?_, ?_, ?_⟩
  · rw [disconnect_length]; omega
  · exact fun j hj hne => disconnect_entry_ne c s j hj hne
  · exact fun hlt => disconnect_entry_eq c s hlt

theorem C3_slot_swap_witness :
    clientA.slot < serverThree.clients.length ∧
    ((disconnect clientA serverThree).1.clients.length + 1 =
       serverThree.clients.length ∧
     (∀ j, j < serverThree.clients.length - 1 → j ≠ clientA.slot →
       (disconnect clientA serverThree).1.clients[j]? = serverThree.clients[j]?) ∧
     (clientA.slot < serverThree.clients.length - 1 →
       (disconnect clientA serverThree).1.clients[clientA.slot]? =
         some ((serverThree.clients.getD (serverThree.clients.length - 1) none).map
           (fun m => { m with slot := clientA.slot })))) :=
  ⟨by decide, C3_slot_swap clientA serverThree (by decide)⟩

/-- C8 fails on the code: on accept failure `onconnection` calls
`disconnect` on the freshly malloc'd client record whose `slot`, `id` and
`server` fields are uninitialized (tcp_server.c:106-114), and `disconnect`
unconditionally decrements `num_clients` and fires the on-disconnect hook.
Concretely: for a server with one live client, an accept failure drops
`num_clients` to 0 (for every possible content of the uninitialized fields,
reading the garbage `server` pointer as this server) and invokes the
on-disconnect hook once for the never-registered record — the registry is
not left unchanged and the abandonment is not confined to the failed
attempt. -/
theorem C8_accept_failure_corrupts_registry (gid : Int) (gslot : Nat) :
    (onconnection serverOne (-1) gid gslot).1.clients.length = 0 ∧
    discEvents (onconnection serverOne (-1) gid gslot).2 = [(gid, 0)] := by
  constructor <;>
    simp [onconnection, serverOne, clientA, MAX_CLIENTS, disconnect, discEvents]

/-- C4: `disconnect` of a live record (slot in range, identity held by no
other live record) fires the on-disconnect hook exactly once — after the
registry compaction (the hook's count argument is the already-decremented
count, and the server state the hook observes is the removed one) and before
the shutdown request, which is the following and last effect; consequently
the removed identity is no longer live, and a broadcast issued from the
hook or any time later targets every live connection except the
disconnecting one. -/
theorem C4_disconnect_ordering (c : Client) (s : Server)
    (hlen : c.slot < s.clients.length)
    (huniq : ∀ j, j < s.clients.length → j ≠ c.slot →
      idApart (s.clients.getD j none) c.id = true) :
    (disconnect c s).2 =
      [Effect.hookDisconnected c.id (s.clients.length - 1),
       Effect.shutdownIssued c.id] ∧
    c.id ∉ liveIds (disconnect c s).1 ∧
    ∀ data wr, c.id ∉ writeTargets (luv_server_broadcast (disconnect c s).1 data wr) := by
  have habs : c.id ∉ liveIds (disconnect c s).1 := by
    intro hmem
    rw [liveIds, List.mem_filterMap] at hmem
    obtain ⟨o, ho, hoeq⟩ := hmem
    cases o with
    | none => simp at hoeq
    | some d =>
      have hdid : d.id = c.id := by simpa using hoeq
      rw [List.mem_iff_getElem] at ho
      obtain ⟨j, hjlt, hj⟩ := ho
      have hj' : (disconnect c s).1.clients[j]? = some (some d) := by
        rw [List.getElem?_eq_getElem hjlt, hj]
      have hjlt' : j < s.clients.length - 1 := by
        rw [disconnect_length] at hjlt; exact hjlt
      by_cases hjc : j = c.slot
      · subst hjc
        rw [disconnect_entry_eq c s hjlt'] at hj'
        cases h0 : s.clients.getD (s.clients.length - 1) none with
        | none => rw [h0] at hj'; simp at hj'
        | some m =>
          rw [h0] at hj'
          have hdm : d.id = m.id := by
            have : ({ m with slot := c.slot } : Client) = d := by simpa using hj'
            rw [← this]
          have hap := huniq (s.clients.length - 1) (by omega) (by omega)
          rw [h0] at hap
          simp only [idApart, bne_iff_ne, ne_eq, decide_eq_true_eq] at hap
          exact hap (by rw [← hdm, hdid])
      · rw [disconnect_entry_ne c s j hjlt' hjc] at hj'
        have hap := huniq j (by omega) hjc
        rw [List.getD_eq_getElem?_getD, hj'] at hap
        simp only [Option.getD_some, idApart, bne_iff_ne, ne_eq,
          decide_eq_true_eq] at hap
        exact hap hdid
  refine ⟨disconnect_trace c s, habs, ?_⟩
  intro data wr
  rw [broadcast_writeTargets]
  exact habs

theorem C4_disconnect_ordering_witness :
    (clientA.slot < serverTwo.clients.length ∧
     (∀ j, j < serverTwo.clients.length → j ≠ clientA.slot →
       idApart (serverTwo.clients.getD j none) clientA.id = true)) ∧
    ((disconnect clientA serverTwo).2 =
       [Effect.hookDisconnected clientA.id (serverTwo.clients.length - 1),
        Effect.shutdownIssued clientA.id] ∧
     clientA.id ∉ liveIds (disconnect clientA serverTwo).1 ∧
     ∀ data wr, clientA.id ∉
       writeTargets (luv_server_broadcast (disconnect clientA serverTwo).1 data wr)) :=
  ⟨⟨by decide, by decide⟩,
   C4_disconnect_ordering clientA serverTwo (by decide) (by decide)⟩

theorem getD_some_of_getElem (l : List (Option Client)) (k : Nat) (o : Option Client)
    (h : l[k]? = some o) : l.getD k none = o := by
  rw [List.getD_eq_getElem?_getD, h]; rfl

theorem getElem_of_getD_some (l : List (Option Client)) (k : Nat) (m : Client)
    (h : l.getD k none = some m) : l[k]? = some (some m) := by
  rw [List.getD_eq_getElem?_getD] at h
  cases h2 : l[k]? with
  | none => rw [h2] at h; simp at h
  | some o => rw [h2] at h; simp only [Option.getD_some] at h; rw [h]

/-- Where each entry of the compacted registry comes from: an untouched old
entry, or (at the removed slot) the old last entry with its id preserved. -/
theorem disconnect_entry_char (c : Client) (s : Server) (k : Nat) (x : Client)
    (hk : k < s.clients.length - 1)
    (hx : (disconnect c s).1.clients[k]? = some (some x)) :
    (k ≠ c.slot ∧ s.clients[k]? = some (some x)) ∨
    (k = c.slot ∧
      ∃ m, s.clients[s.clients.length - 1]? = some (some m) ∧ m.id = x.id) := by
  by_cases hkc : k = c.slot
  · right
    refine ⟨hkc, ?_⟩
    subst hkc
    rw [disconnect_entry_eq c s hk] at hx
    cases h0 : s.clients.getD (s.clients.length - 1) none with
    | none => rw [h0] at hx; simp at hx
    | some m =>
      rw [h0] at hx
      refine ⟨m, getElem_of_getD_some _ _ _ h0, ?_⟩
      have hx' : ({ m with slot := c.slot } : Client) = x := by simpa using hx
      rw [← hx']
  · left
    exact ⟨hkc, by rw [← disconnect_entry_ne c s k hk hkc]; exact hx⟩

theorem wf_create (host : String) (port g : Int) :
    WfServer (luv_server_create host port g) := by
  refine ⟨?_, ?_, ?_⟩ <;> simp [luv_server_create, WfServer, MAX_CLIENTS]

theorem wf_onconnection_ok (s : Server) (hwf : WfServer s) (gid : Int)
    (gslot : Nat) : WfServer (onconnection s 0 gid gslot).1 := by
  obtain ⟨hcap, hlive, hdist⟩ := hwf
  by_cases hful : s.clients.length = MAX_CLIENTS
  · rw [onconnection, if_pos hful]
    exact ⟨hcap, hlive, hdist⟩
  · rw [onconnection, if_neg hful, if_neg (by simp)]
    dsimp only
    refine ⟨?_, ?_, ?_⟩
    · simp only [List.length_append, List.length_cons, List.length_nil]
      have : s.clients.length < MAX_CLIENTS := lt_of_le_of_ne hcap hful
      omega
    · intro i hi
      simp only [List.length_append, List.length_cons, List.length_nil] at hi
      by_cases hi' : i < s.clients.length
      · obtain ⟨c, hc, hcs, hci⟩ := hlive i hi'
        refine ⟨c, by rw [List.getElem?_append, if_pos hi']; exact hc, hcs, ?_⟩
        show c.id < s.ids + 1
        omega
      · have hieq : i = s.clients.length := by omega
        subst hieq
        refine ⟨{ id := s.ids, slot := s.clients.length }, ?_, rfl, by simp⟩
        rw [List.getElem?_append_right (le_refl _)]
        simp
    · intro i j hi hj hne a b ha hb
      simp only [List.length_append, List.length_cons, List.length_nil] at hi hj
      have hchar : ∀ k x, k < s.clients.length + 1 →
          (s.clients ++ [some { id := s.ids, slot := s.clients.length }])[k]? =
            some (some x) →
          (k < s.clients.length ∧ s.clients[k]? = some (some x)) ∨
          (k = s.clients.length ∧ x.id = s.ids) := by
        intro k x hk hkx
        by_cases hk' : k < s.clients.length
        · exact Or.inl ⟨hk', by rw [List.getElem?_append, if_pos hk'] at hkx; exact hkx⟩
        · have hkeq : k = s.clients.length := by omega
          subst hkeq
          rw [List.getElem?_append_right (le_refl _)] at hkx
          simp at hkx
          exact Or.inr ⟨rfl, by rw [← hkx]⟩
      rcases hchar i a hi ha with ⟨hia, hia2⟩ | ⟨hia, hia2⟩ <;>
        rcases hchar j b hj hb with ⟨hjb, hjb2⟩ | ⟨hjb, hjb2⟩
      · exact hdist i j hia hjb hne a b hia2 hjb2
      · obtain ⟨c, hc, _, hci⟩ := hlive i hia
        have hca : c = a := by rw [hc] at hia2; simpa using hia2
        rw [← hca, hjb2]
        omega
      · obtain ⟨c, hc, _, hci⟩ := hlive j hjb
        have hcb : c = b := by rw [hc] at hjb2; simpa using hjb2
        rw [← hcb, hia2]
        omega
      · exact absurd (hia.trans hjb.symm) hne


theorem findClient_spec (s : Server) (cid : Int) (c : Client) (hwf : WfServer s)
    (h : findClient s cid = some c) :
    c.slot < s.clients.length ∧ s.clients[c.slot]? = some (some c) := by
  obtain ⟨hcap, hlive, hdist⟩ := hwf
  have hmem : c ∈ s.clients.filterMap (fun o => o) := List.mem_of_find?_eq_some h
  rw [List.mem_filterMap] at hmem
  obtain ⟨o, ho, hoe⟩ := hmem
  have ho' : (some c : Option Client) ∈ s.clients := by rw [← hoe]; exact ho
  rw [List.mem_iff_getElem] at ho'
  obtain ⟨i, hi, hie⟩ := ho'
  obtain ⟨c', hc', hcs', _⟩ := hlive i hi
  have hcc : c' = c := by
    rw [List.getElem?_eq_getElem hi, hie] at hc'
    simpa using hc'.symm
  subst hcc
  rw [hcs']
  exact ⟨hi, by rw [List.getElem?_eq_getElem hi, hie]⟩

theorem wf_disconnect (s : Server) (c : Client) (hwf : WfServer s)
    (hc : c.slot < s.clients.length) : WfServer (disconnect c s).1 := by
  obtain ⟨hcap, hlive, hdist⟩ := hwf
  refine ⟨?_, ?_, ?_⟩
  · rw [disconnect_length]; omega
  · intro i hi
    rw [disconnect_length] at hi
    by_cases hic : i = c.slot
    · subst hic
      rw [disconnect_entry_eq c s hi]
      obtain ⟨d, hd, hds, hdi⟩ := hlive (s.clients.length - 1) (by omega)
      rw [getD_some_of_getElem _ _ _ hd]
      exact ⟨{ d with slot := c.slot }, by simp, rfl, by rw [disconnect_ids]; exact hdi⟩
    · rw [disconnect_entry_ne c s i hi hic]
      obtain ⟨d, hd, hds, hdi⟩ := hlive i (by omega)
      exact ⟨d, hd, hds, by rw [disconnect_ids]; exact hdi⟩
  · intro i j hi hj hne a b ha hb
    rw [disconnect_length] at hi hj
    rcases disconnect_entry_char c s i a hi ha with ⟨hia, hia2⟩ | ⟨hia, ⟨m, hm, hmi⟩⟩ <;>
      rcases disconnect_entry_char c s j b hj hb with ⟨hjb, hjb2⟩ | ⟨hjb, ⟨m', hm', hmi'⟩⟩
    · exact hdist i j (by omega) (by omega) hne a b hia2 hjb2
    · rw [← hmi']
      exact hdist i (s.clients.length - 1) (by omega) (by omega) (by omega) a m' hia2 hm'
    · rw [← hmi]
      exact hdist (s.clients.length - 1) j (by omega) (by omega) (by omega) m b hm hjb2
    · exact absurd (hia.trans hjb.symm) hne

theorem wf_step (s : Server) (e : Event) (hwf : WfServer s)
    (hok : acceptOkE e = true) : WfServer (step s e).1 := by
  cases e with
  | conn r gid gslot =>
    have hr : r = 0 := by simpa [acceptOkE] using hok
    subst hr
    exact wf_onconnection_ok s hwf gid gslot
  | disc cid =>
    simp only [step]
    cases h : findClient s cid with
    | none => exact hwf
    | some c => exact wf_disconnect s c hwf (findClient_spec s cid c hwf h).1

theorem wf_runServer (evs : List Event) : ∀ s, WfServer s →
    evs.all acceptOkE = true → WfServer (runServer s evs).1 := by
  induction evs with
  | nil => intro s hwf _; exact hwf
  | cons e evs ih =>
    intro s hwf hall
    rw [List.all_cons, Bool.and_eq_true] at hall
    exact ih _ (wf_step s e hwf hall.1) hall.2

/-- C1: starting from a freshly created server (with arbitrary contents `g`
of the uninitialized `ids` field), after every sequence of connection
insertions (`onconnection` with a successful accept) and removals
(EOF/error-triggered `disconnect` of a live client) the registry is
well-formed: `num_clients <= MAX_CLIENTS`, `clients[0..num_clients)` holds
exactly the live records with no gaps (every entry non-null), every live
record's `slot` equals its registry index (hence no two live records share a
slot), and no two live records share an identity.  Every prefix of a
sequence is itself a sequence, so this covers the state after each
operation. -/
theorem C1_registry_invariant (host : String) (port g : Int) (evs : List Event)
    (hok : evs.all acceptOkE = true) :
    WfServer (runServer (luv_server_create host port g) evs).1 :=
  wf_runServer evs _ (wf_create host port g) hok

theorem C1_registry_invariant_witness :
    ([Event.conn 0 0 0, Event.conn 0 0 0, Event.disc 0,
      Event.conn 0 0 0].all acceptOkE = true) ∧
    WfServer (runServer (luv_server_create "0.0.0.0" 7000 0)
      [Event.conn 0 0 0, Event.conn 0 0 0, Event.disc 0, Event.conn 0 0 0]).1 :=
  ⟨by decide, C1_registry_invariant "0.0.0.0" 7000 0 _ (by decide)⟩

theorem acceptedIds_append (t1 t2 : List Effect) :
    acceptedIds (t1 ++ t2) = acceptedIds t1 ++ acceptedIds t2 := by
  simp [acceptedIds]

/-- Each event either assigns no identity and leaves the counter alone, or
assigns exactly the current counter value and increments the counter. -/
theorem step_ids (s : Server) (e : Event) :
    (acceptedIds (step s e).2 = [] ∧ (step s e).1.ids = s.ids) ∨
    (acceptedIds (step s e).2 = [s.ids] ∧ (step s e).1.ids = s.ids + 1) := by
  cases e with
  | conn r gid gslot =>
    simp only [step, onconnection]
    by_cases hful : s.clients.length = MAX_CLIENTS
    · rw [if_pos hful]
      exact Or.inl ⟨rfl, rfl⟩
    · rw [if_neg hful]
      by_cases hr : r ≠ 0
      · rw [if_pos hr]
        dsimp only
        refine Or.inl ⟨?_, disconnect_ids _ _⟩
        rw [acceptedIds, List.filterMap_cons, List.filterMap_cons, disconnect_trace]
        rfl
      · rw [if_neg hr]
        exact Or.inr ⟨rfl, rfl⟩
  | disc cid =>
    simp only [step]
    cases h : findClient s cid with
    | none => exact Or.inl ⟨rfl, rfl⟩
    | some c =>
      refine Or.inl ⟨?_, disconnect_ids c s⟩
      rw [disconnect_trace]
      rfl

theorem runServer_ids_mono (evs : List Event) : ∀ s : Server,
    s.ids ≤ (runServer s evs).1.ids ∧
    (∀ x ∈ acceptedIds (runServer s evs).2,
      s.ids ≤ x ∧ x < (runServer s evs).1.ids) ∧
    List.Pairwise (fun a b => a < b) (acceptedIds (runServer s evs).2) := by
  induction evs with
  | nil =>
    intro s
    refine ⟨le_refl _, ?_, ?_⟩ <;> simp [runServer, acceptedIds]
  | cons e evs ih =>
    intro s
    obtain ⟨hle, hbd, hpw⟩ := ih (step s e).1
    simp only [runServer]
    rw [acceptedIds_append]
    rcases step_ids s e with ⟨h0, hid⟩ | ⟨h1, hid⟩
    · rw [h0, List.nil_append]
      refine ⟨hid ▸ hle, fun x hx => ⟨hid ▸ (hbd x hx).1, (hbd x hx).2⟩, hpw⟩
    · rw [h1, List.singleton_append]
      refine ⟨?_, ?_, ?_⟩
      · exact le_trans (by omega) hle
      · intro x hx
        rcases List.mem_cons.mp hx with hx1 | hx2
        · subst hx1
          exact ⟨le_refl _, lt_of_lt_of_le (by omega) hle⟩
        · exact ⟨le_trans (by omega) (hbd x hx2).1, (hbd x hx2).2⟩
      · rw [List.pairwise_cons]
        exact ⟨fun y hy =>
          lt_of_lt_of_le (show s.ids < (step s e).1.ids by omega) (hbd y hy).1, hpw⟩

/-- C9: over any lifetime of a freshly created server (arbitrary
uninitialized counter start `g`, any interleaving of successful connection
and disconnection events), the identities handed to successively accepted
connections are strictly increasing in acceptance order — each later-accepted
connection's identity is strictly greater than every earlier one's — and in
particular never reused.  Identities are assigned at accept time
(`client->id = server->ids++` is the only place the counter or a record's
identity is written). -/
theorem C9_identity_monotonic (host : String) (port g : Int) (evs : List Event)
    (_hok : evs.all acceptOkE = true) :
    List.Pairwise (fun a b => a < b)
      (acceptedIds (runServer (luv_server_create host port g) evs).2) ∧
    (acceptedIds (runServer (luv_server_create host port g) evs).2).Nodup :=
  have h := (runServer_ids_mono evs (luv_server_create host port g)).2.2
  ⟨h, h.imp (fun hab => ne_of_lt hab)⟩

theorem C9_identity_monotonic_witness :
    ([Event.conn 0 0 0, Event.disc 3, Event.conn 0 0 0].all acceptOkE = true) ∧
    (List.Pairwise (fun a b => a < b)
      (acceptedIds (runServer (luv_server_create "0.0.0.0" 7000 3)
        [Event.conn 0 0 0, Event.disc 3, Event.conn 0 0 0]).2) ∧
     (acceptedIds (runServer (luv_server_create "0.0.0.0" 7000 3)
        [Event.conn 0 0 0, Event.disc 3, Event.conn 0 0 0]).2).Nodup) :=
  ⟨by decide, C9_identity_monotonic "0.0.0.0" 7000 3 _ (by decide)⟩
